import Mathlib

set_option maxRecDepth 100000

/-!
Verification of the fast-md5-web hash engine.

Shallow embedding of the two Rust crates:
* `Core` models `src/src/lib.rs` (the parallel/slicing calculator and the
  single-task digest function).
* `Wasm` models `src/wasm/src/lib.rs` (the streamed calculator and the
  incremental session registry backed by the process-wide `HASH_STATES` map).

The `md5` crate is an external primitive; we embed it as an executable MD5
over byte lists (`Nat` values `< 256`), with 32-bit words as `Nat` reduced
modulo `2^32`.  A hasher state (`Md5::new` / `update` / `finalize`) is
modelled as the list of absorbed bytes, with `update` appending and
`finalize` running the MD5 compression over the whole absorbed sequence,
which is the documented semantics of the streaming API of that crate.

Log emission (`console_log!`) is embedded explicitly: every operation
returns, alongside its value, the list of strings it would print, so that
independence of results from the logging flag is a real statement.
-/

/-- 32-bit truncation: `x % 2^32`, the overflow discipline of Rust `u32`. -/
def w32 (x : Nat) : Nat := x % 4294967296

/-- 32-bit left rotation (argument assumed `< 2^32`). -/
def rotl (x s : Nat) : Nat := w32 ((x <<< s) ||| (x >>> (32 - s)))

/-- The 64 MD5 sine-derived round constants `T[i] = floor(2^32 * abs(sin(i+1)))`. -/
def kTable : List Nat :=
  [0xd76aa478, 0xe8c7b756, 0x242070db, 0xc1bdceee,
   0xf57c0faf, 0x4787c62a, 0xa8304613, 0xfd469501,
   0x698098d8, 0x8b44f7af, 0xffff5bb1, 0x895cd7be,
   0x6b901122, 0xfd987193, 0xa679438e, 0x49b40821,
   0xf61e2562, 0xc040b340, 0x265e5a51, 0xe9b6c7aa,
   0xd62f105d, 0x02441453, 0xd8a1e681, 0xe7d3fbc8,
   0x21e1cde6, 0xc33707d6, 0xf4d50d87, 0x455a14ed,
   0xa9e3e905, 0xfcefa3f8, 0x676f02d9, 0x8d2a4c8a,
   0xfffa3942, 0x8771f681, 0x6d9d6122, 0xfde5380c,
   0xa4beea44, 0x4bdecfa9, 0xf6bb4b60, 0xbebfbc70,
   0x289b7ec6, 0xeaa127fa, 0xd4ef3085, 0x04881d05,
   0xd9d4d039, 0xe6db99e5, 0x1fa27cf8, 0xc4ac5665,
   0xf4292244, 0x432aff97, 0xab9423a7, 0xfc93a039,
   0x655b59c3, 0x8f0ccc92, 0xffeff47d, 0x85845dd1,
   0x6fa87e4f, 0xfe2ce6e0, 0xa3014314, 0x4e0811a1,
   0xf7537e82, 0xbd3af235, 0x2ad7d2bb, 0xeb86d391]

/-- Per-round left-rotation amounts. -/
def sAmt (i : Nat) : Nat :=
  if i < 16 then [7, 12, 17, 22].getD (i % 4) 0
  else if i < 32 then [5, 9, 14, 20].getD (i % 4) 0
  else if i < 48 then [4, 11, 16, 23].getD (i % 4) 0
  else [6, 10, 15, 21].getD (i % 4) 0

/-- Message-word schedule of round `i`. -/
def mIdx (i : Nat) : Nat :=
  if i < 16 then i
  else if i < 32 then (5 * i + 1) % 16
  else if i < 48 then (3 * i + 5) % 16
  else (7 * i) % 16

/-- The four MD5 bitwise mixing functions, selected by round index. -/
def mixFun (i b c d : Nat) : Nat :=
  if i < 16 then (b &&& c) ||| ((b ^^^ 0xffffffff) &&& d)
  else if i < 32 then (d &&& b) ||| ((d ^^^ 0xffffffff) &&& c)
  else if i < 48 then b ^^^ c ^^^ d
  else c ^^^ (b ||| (d ^^^ 0xffffffff))

/-- One MD5 round on state `(a, b, c, d)` with message words `M`. -/
def md5Step (M : List Nat) (st : Nat × Nat × Nat × Nat) (i : Nat) :
    Nat × Nat × Nat × Nat :=
  let a := st.1
  let b := st.2.1
  let c := st.2.2.1
  let d := st.2.2.2
  let tmp := w32 (a + mixFun i b c d + kTable.getD i 0 + M.getD (mIdx i) 0)
  (d, w32 (b + rotl tmp (sAmt i)), b, c)

/-- Process one 16-word block: 64 rounds followed by the feed-forward sums. -/
def md5Block (st : Nat × Nat × Nat × Nat) (M : List Nat) :
    Nat × Nat × Nat × Nat :=
  let r := (List.range 64).foldl (md5Step M) st
  (w32 (st.1 + r.1), w32 (st.2.1 + r.2.1), w32 (st.2.2.1 + r.2.2.1),
   w32 (st.2.2.2 + r.2.2.2))

/-- Little-endian decoding of a 64-byte block into 16 32-bit words. -/
def toWords (block : List Nat) : List Nat :=
  (List.range 16).map fun j =>
    block.getD (4 * j) 0 + 256 * block.getD (4 * j + 1) 0 +
      65536 * block.getD (4 * j + 2) 0 + 16777216 * block.getD (4 * j + 3) 0

/-- Little-endian byte serialization of a 32-bit word. -/
def wordLE (x : Nat) : List Nat :=
  [x % 256, (x >>> 8) % 256, (x >>> 16) % 256, (x >>> 24) % 256]

/-- Little-endian 64-bit encoding of the message bit length. -/
def lenBytes (len : Nat) : List Nat :=
  (List.range 8).map fun j => ((len * 8) >>> (8 * j)) % 256

/-- MD5 padding: `0x80`, zeros to 56 mod 64, then the 64-bit bit length. -/
def padMsg (msg : List Nat) : List Nat :=
  msg ++ [0x80] ++ List.replicate ((119 - msg.length % 64) % 64) 0 ++
    lenBytes msg.length

/-- Fuel-indexed worker for `chunkList`; structural recursion on the fuel so
that the kernel can evaluate it.  The fuel is always at least the length of
the list at the call sites. -/
def chunkListF : Nat → Nat → List Nat → List (List Nat)
  | _, _, [] => []
  | _, 0, a :: l => [a :: l]
  | 0, _ + 1, a :: l => [a :: l]
  | fuel + 1, n + 1, a :: l => (a :: l).take (n + 1) :: chunkListF fuel (n + 1) (l.drop n)

/-- Split a list into consecutive pieces of `n` elements (last piece shorter),
mirroring Rust `slice::chunks`; an empty list yields no pieces. -/
def chunkList (n : Nat) (l : List Nat) : List (List Nat) := chunkListF l.length n l

/-- Finalize: the 16-byte MD5 digest of a byte sequence. -/
def md5 (msg : List Nat) : List Nat :=
  let padded := padMsg msg
  let st := (chunkList 64 padded).foldl (fun st blk => md5Block st (toWords blk))
    (0x67452301, 0xefcdab89, 0x98badcfe, 0x10325476)
  wordLE st.1 ++ wordLE st.2.1 ++ wordLE st.2.2.1 ++ wordLE st.2.2.2

/-- A lowercase hex digit. -/
def hexDigit (n : Nat) : Char :=
  if n < 10 then Char.ofNat (48 + n) else Char.ofNat (87 + n)

/-- Lowercase hex rendering of a byte list, two digits per byte, matching
Rust `format!` with the `x` specifier on a digest. -/
def hexOfBytes (bs : List Nat) : String :=
  String.mk ((bs.map fun b => [hexDigit (b / 16 % 16), hexDigit (b % 16)]).flatten)

/-- The 32-character lowercase hex digest of a byte sequence: the reference
single-pass digest all three calculators are compared against. -/
def md5Hex (msg : List Nat) : String := hexOfBytes (md5 msg)

/-- ASCII prefix extraction, the embedding of Rust `&s[..n]` on the
all-ASCII hex strings this code slices (`to_string` included). -/
def strTake (s : String) (n : Nat) : String := String.mk (s.toList.take n)

/-- The truncation policy of the digest formatter, shared verbatim by
`Core.calculate_md5_async`, `Core.calculate_md5_single_async` and
`Wasm.finalize_incremental_md5`: `16` takes the first 16 hex characters,
`32` keeps the whole string, anything else takes `min n (length)`.  The
fixed-width slices are in range at every call site because the hex string
always has 32 characters. -/
def truncateHash (md5_length : Nat) (s : String) : String :=
  if md5_length = 16 then strTake s 16
  else if md5_length = 32 then s
  else strTake s (min md5_length s.length)

/-- Embedding of the `console_log!` macro: the list of lines it prints. -/
def consoleLog (enable : Bool) (s : String) : List String :=
  if enable then [s] else []

namespace Core

/-- The calculator of `src/src/lib.rs`: a task count and a logging flag. -/
structure Md5Calculator where
  task_count : Nat
  enable_log : Bool
deriving DecidableEq

/-- Constructor: a zero task count is silently replaced by the default 4;
logging starts disabled. -/
def Md5Calculator.new (task_count : Nat) : Md5Calculator :=
  ⟨if task_count = 0 then 4 else task_count, false⟩

/-- Getter for the configured task count. -/
def Md5Calculator.get_task_count (self : Md5Calculator) : Nat := self.task_count

/-- Getter for the logging flag. -/
def Md5Calculator.is_log_enabled (self : Md5Calculator) : Bool := self.enable_log

/-- Setter for the logging flag. -/
def Md5Calculator.set_log_enabled (self : Md5Calculator) (enable : Bool) :
    Md5Calculator :=
  ⟨self.task_count, enable⟩

/-- The slice bounds computed inside the fan-out loop of
`calculate_md5_async` (src/src/lib.rs lines 65-71): slice `i` starts at
`i * chunk_size` and ends one `chunk_size` later, except that the last slice
also absorbs the division remainder. -/
def sliceBounds (data_len actual_task_count i : Nat) : Nat × Nat :=
  let chunk_size := data_len / actual_task_count
  let remainder := data_len % actual_task_count
  let start := i * chunk_size
  (start,
   if i = actual_task_count - 1 then start + chunk_size + remainder
   else start + chunk_size)

/-- The byte slice `data[start..end]` handed to task `i`. -/
def sliceOf (data : List Nat) (actual_task_count i : Nat) : List Nat :=
  let b := sliceBounds data.length actual_task_count i
  (data.drop b.1).take (b.2 - b.1)

/-- Embedding of `Md5Calculator::calculate_md5_async` (src/src/lib.rs lines
45-116): empty input short-circuits to the empty string; otherwise the input
is partitioned into `min(task_count, len)` slices, each task hashes its own
slice into an index-addressed result slot, the per-slice digests are fed in
index order into a final hasher, and the final digest is hex-formatted and
truncated.  Returns the result together with the console lines printed. -/
def calculate_md5_async (self : Md5Calculator) (data : List Nat)
    (md5_length : Nat) : String × List String :=
  let data_len := data.length
  if data_len = 0 then ("", [])
  else
    let actual_task_count := min self.task_count data_len
    let startLog := consoleLog self.enable_log
      ("Starting async MD5 calculation, data length: " ++ toString data_len ++
        ", task count: " ++ toString actual_task_count)
    let results := (List.range actual_task_count).map fun i =>
      md5 (sliceOf data actual_task_count i)
    let taskLogs := ((List.range actual_task_count).map fun i =>
      let b := sliceBounds data_len actual_task_count i
      consoleLog self.enable_log
        ("Task " ++ toString i ++ " completed, processed data range: " ++
          toString b.1 ++ "-" ++ toString b.2)).flatten
    let absorbed := results.foldl (fun s c => s ++ c) []
    let hash_string := hexOfBytes (md5 absorbed)
    let truncated_hash := truncateHash md5_length hash_string
    (truncated_hash,
     startLog ++ taskLogs ++ consoleLog self.enable_log
       ("Async MD5 calculation completed: " ++ truncated_hash))

/-- Embedding of the free function `calculate_md5_single_async`
(src/src/lib.rs lines 146-162): hashes the whole input in one pass — with no
empty-input short-circuit — then hex-formats and truncates. -/
def calculate_md5_single_async (data : List Nat) (md5_length : Nat)
    (enable_log : Bool) : String × List String :=
  let startLog := consoleLog enable_log
    ("Starting async single-task MD5 calculation, data length: " ++
      toString data.length)
  let hash_string := hexOfBytes (md5 data)
  let result := truncateHash md5_length hash_string
  (result,
   startLog ++ consoleLog enable_log
     ("Async single-task MD5 calculation completed: " ++ result))

end Core

namespace Wasm

/-- The calculator of `src/wasm/src/lib.rs`: only a logging flag. -/
structure Md5Calculator where
  enable_log : Bool
deriving DecidableEq

/-- Constructor: logging starts disabled. -/
def Md5Calculator.new : Md5Calculator := ⟨false⟩

/-- Setter for the logging flag. -/
def Md5Calculator.set_log_enabled (self : Md5Calculator) (enable : Bool) :
    Md5Calculator :=
  ⟨enable⟩

/-- Getter for the logging flag. -/
def Md5Calculator.is_log_enabled (self : Md5Calculator) : Bool := self.enable_log

/-- The process-wide `HASH_STATES` table: session id to hasher state (the
bytes absorbed so far).  It is a `static` in the source, so the embedding
passes it explicitly through every session operation; it is not a field of
`Md5Calculator`. -/
abbrev Registry : Type := List (String × List Nat)

/-- Map lookup on the session table. -/
def regGet : Registry → String → Option (List Nat)
  | [], _ => none
  | e :: rest, id => if e.1 = id then some e.2 else regGet rest id

/-- Map insertion: replaces the value of an existing key (`HashMap::insert`
last-write-wins), otherwise appends a new entry. -/
def regInsert : Registry → String → List Nat → Registry
  | [], id, v => [(id, v)]
  | e :: rest, id, v =>
    if e.1 = id then (id, v) :: rest else e :: regInsert rest id v

/-- Map removal (`HashMap::remove`): drops every entry with the given key. -/
def regRemove : Registry → String → Registry
  | [], _ => []
  | e :: rest, id =>
    if e.1 = id then regRemove rest id else e :: regRemove rest id

/-- Embedding of `Md5Calculator::calculate_md5_async` (src/wasm/src/lib.rs
lines 45-92): empty input short-circuits to the empty string; inputs over
512KB are fed to the hasher in chunks of 256KB (over 10MB) or 128KB,
yielding to the scheduler every 2MB, smaller inputs in one call; the digest
is hex-formatted and truncated.  The fold carries the `processed` counter of
the source loop even though it only gates the (state-free) yield. -/
def calculate_md5_async (self : Md5Calculator) (data : List Nat)
    (md5_length : Nat) : String × List String :=
  let data_len := data.length
  if data_len = 0 then ("", [])
  else
    let startLog := consoleLog self.enable_log
      ("Starting async MD5 calculation, data length: " ++ toString data_len)
    let absorbed :=
      if 524288 < data_len then
        let chunk_size := if 10485760 < data_len then 262144 else 131072
        (((chunkList chunk_size data).foldl
          (fun st chunk => (st.1 ++ chunk, st.2 + chunk.length))
          (([] : List Nat), 0))).1
      else data
    let hash_string := hexOfBytes (md5 absorbed)
    let truncated_hash := truncateHash md5_length hash_string
    (truncated_hash,
     startLog ++ consoleLog self.enable_log
       ("Async MD5 calculation completed: " ++ truncated_hash))

/-- Embedding of `start_incremental_md5` (src/wasm/src/lib.rs lines
107-111): inserts a fresh hasher state for the id into the shared table. -/
def start_incremental_md5 (self : Md5Calculator) (g : Registry)
    (session_id : String) : Registry × List String :=
  (regInsert g session_id [],
   consoleLog self.enable_log
     ("Started incremental MD5 session: " ++ session_id))

/-- Embedding of `update_incremental_md5` (src/wasm/src/lib.rs lines
115-125): appends the bytes to an existing session state and returns true,
or returns false leaving the table unchanged. -/
def update_incremental_md5 (self : Md5Calculator) (g : Registry)
    (session_id : String) (data : List Nat) : Bool × Registry × List String :=
  match regGet g session_id with
  | some s =>
    (true, regInsert g session_id (s ++ data),
     consoleLog self.enable_log
       ("Updated incremental MD5 session: " ++ session_id ++
         ", data length: " ++ toString data.length))
  | none =>
    (false, g,
     consoleLog self.enable_log
       ("Incremental MD5 session not found: " ++ session_id))

/-- Embedding of `finalize_incremental_md5` (src/wasm/src/lib.rs lines
129-147): removes the session, finalizes its state, hex-formats and
truncates; an unknown id yields the empty string with the table unchanged. -/
def finalize_incremental_md5 (self : Md5Calculator) (g : Registry)
    (session_id : String) (md5_length : Nat) :
    String × Registry × List String :=
  match regGet g session_id with
  | some s =>
    let truncated_hash := truncateHash md5_length (hexOfBytes (md5 s))
    (truncated_hash, regRemove g session_id,
     consoleLog self.enable_log
       ("Finalized incremental MD5 session: " ++ session_id ++ ", result: " ++
         truncated_hash))
  | none =>
    ("", g,
     consoleLog self.enable_log
       ("Incremental MD5 session not found for finalization: " ++ session_id))

/-- Embedding of `cancel_incremental_md5` (src/wasm/src/lib.rs lines
151-160): removes the session if present and reports whether it was. -/
def cancel_incremental_md5 (self : Md5Calculator) (g : Registry)
    (session_id : String) : Bool × Registry × List String :=
  let removed := (regGet g session_id).isSome
  (removed, regRemove g session_id,
   consoleLog self.enable_log
     (if removed then "Cancelled incremental MD5 session: " ++ session_id
      else "Incremental MD5 session not found for cancellation: " ++ session_id))

end Wasm

/-- The full observable program state: both calculator instances and the
process-wide session table. -/
structure World where
  core_calc : Core.Md5Calculator
  wasm_calc : Wasm.Md5Calculator
  registry : Wasm.Registry

/-- State-passing form of a streamed one-shot digest call inside the full
program state: the Rust method borrows `self` immutably and its body never
references `HASH_STATES`, so its only effects are the returned string and
console text, and the world passes through unchanged. -/
def runStreamed (w : World) (data : List Nat) (md5_length : Nat) :
    String × World :=
  ((Wasm.calculate_md5_async w.wasm_calc data md5_length).1, w)

/-- State-passing form of a parallel one-shot digest call; as with
`runStreamed`, the source method borrows `self` immutably and touches no
session state. -/
def runParallel (w : World) (data : List Nat) (md5_length : Nat) :
    String × World :=
  ((Core.calculate_md5_async w.core_calc data md5_length).1, w)

/-- State-passing form of a single-task one-shot digest call; the source is
a free function taking only its three arguments. -/
def runSingle (w : World) (data : List Nat) (md5_length : Nat)
    (enable_log : Bool) : String × World :=
  ((Core.calculate_md5_single_async data md5_length enable_log).1, w)

/-! ### Helper lemmas -/

theorem chunkListF_flatten :
    ∀ (fuel n : Nat) (l : List Nat), l.length ≤ fuel →
      (chunkListF fuel n l).flatten = l := by
  intro fuel
  induction fuel with
  | zero =>
    intro n l h
    have : l = [] := List.eq_nil_of_length_eq_zero (Nat.le_zero.mp h)
    subst this
    simp [chunkListF]
  | succ fuel ih =>
    intro n l h
    cases l with
    | nil => simp [chunkListF]
    | cons a l =>
      cases n with
      | zero => simp [chunkListF]
      | succ n =>
        have hlen : (l.drop n).length ≤ fuel := by
          simp only [List.length_drop]
          simp only [List.length_cons] at h
          omega
        show ((a :: l).take (n + 1) :: chunkListF fuel (n + 1) (l.drop n)).flatten
          = a :: l
        rw [List.flatten_cons, ih _ _ hlen]
        exact List.take_append_drop (n + 1) (a :: l)

/-- Chunking is lossless: the concatenation of the chunks is the input. -/
theorem chunkList_flatten (n : Nat) (l : List Nat) :
    (chunkList n l).flatten = l :=
  chunkListF_flatten l.length n l (Nat.le_refl _)

/-- Feeding a hasher each block of a list in order absorbs the whole list. -/
theorem foldl_append_eq_flatten (L : List (List Nat)) :
    ∀ init : List Nat, L.foldl (fun s c => s ++ c) init = init ++ L.flatten := by
  induction L with
  | nil => simp
  | cons c L ih => intro init; simp [ih, List.append_assoc]

/-- Same, for the streamed loop that also carries the processed counter. -/
theorem foldl_pair_fst (L : List (List Nat)) :
    ∀ (init : List Nat) (p : Nat),
      (L.foldl (fun st chunk => (st.1 ++ chunk, st.2 + chunk.length))
        (init, p)).1 = init ++ L.flatten := by
  induction L with
  | nil => simp
  | cons c L ih => intro init p; simp [ih, List.append_assoc]

theorem strLength_mk (l : List Char) : (String.mk l).length = l.length := rfl

theorem strToList (s : String) : s.toList = s.data := rfl

theorem length_hexOfBytes (bs : List Nat) :
    (hexOfBytes bs).length = 2 * bs.length := by
  unfold hexOfBytes
  rw [strLength_mk]
  induction bs with
  | nil => rfl
  | cons b bs ih =>
    simp only [List.map_cons, List.flatten_cons, List.length_append,
      List.length_cons, List.length_nil, ih]
    omega

theorem length_md5 (msg : List Nat) : (md5 msg).length = 16 := by
  simp [md5, wordLE]

/-- The hex digest always has exactly 32 characters. -/
theorem length_md5Hex (msg : List Nat) : (md5Hex msg).length = 32 := by
  simp [md5Hex, length_hexOfBytes, length_md5]

theorem length_strTake (s : String) (n : Nat) :
    (strTake s n).length = min n s.length := by
  cases s with
  | mk data =>
    simp only [strTake, strToList, strLength_mk]
    exact List.length_take n data

theorem strTake_of_length_le (s : String) (n : Nat) (h : s.length ≤ n) :
    strTake s n = s := by
  cases s with
  | mk data =>
    simp only [strTake, strToList]
    rw [List.take_of_length_le h]

namespace Wasm

@[simp]
theorem regGet_regInsert_self (g : Registry) (id : String) (v : List Nat) :
    regGet (regInsert g id v) id = some v := by
  induction g with
  | nil => simp [regInsert, regGet]
  | cons e rest ih =>
    by_cases h : e.1 = id <;> simp [regInsert, regGet, h, ih]

@[simp]
theorem regGet_regRemove_self (g : Registry) (id : String) :
    regGet (regRemove g id) id = none := by
  induction g with
  | nil => simp [regRemove, regGet]
  | cons e rest ih =>
    by_cases h : e.1 = id <;> simp [regRemove, regGet, h, ih]

theorem regRemove_of_regGet_none (g : Registry) (id : String)
    (h : regGet g id = none) : regRemove g id = g := by
  induction g with
  | nil => rfl
  | cons e rest ih =>
    by_cases he : e.1 = id
    · simp [regGet, he] at h
    · simp only [regGet, if_neg he] at h
      simp [regRemove, he, ih h]

end Wasm

/-! ### Claim theorems -/

/-- C2: for every byte sequence, the streamed digest function returns
exactly the reference single-pass digest — the unchunked path and both
chunked paths alike — and, generically, hashing the concatenation of the
chunks of any chunk size equals hashing the input directly. -/
theorem streamed_digest_matches_single_pass_C2 :
    (∀ (self : Wasm.Md5Calculator) (data : List Nat) (md5_length : Nat),
      data ≠ [] →
      (Wasm.calculate_md5_async self data md5_length).1 =
        truncateHash md5_length (md5Hex data)) ∧
    (∀ (chunk_size : Nat) (data : List Nat),
      md5Hex ((chunkList chunk_size data).flatten) = md5Hex data) := by
  constructor
  · intro self data md5_length h
    have hlen : ¬ data.length = 0 := fun hl => h (List.length_eq_zero.mp hl)
    unfold Wasm.calculate_md5_async
    rw [if_neg hlen]
    by_cases hbig : 524288 < data.length
    · simp [hbig, foldl_pair_fst, chunkList_flatten, md5Hex]
    · simp [hbig, md5Hex]
  · intro chunk_size data
    rw [chunkList_flatten]

/-- Witness for C2 at a concrete input: the streamed digest of `"abc"`
equals its truncated reference digest. -/
theorem streamed_digest_matches_single_pass_C2_witness :
    (Wasm.calculate_md5_async ⟨false⟩ [0x61, 0x62, 0x63] 32).1 =
      truncateHash 32 (md5Hex [0x61, 0x62, 0x63]) :=
  streamed_digest_matches_single_pass_C2.1 ⟨false⟩ [0x61, 0x62, 0x63] 32
    (by decide)

/-- C3, counterexample: the claim says every digest-computing function
returns the empty string on empty input, but the single-task function has
no empty-input short-circuit: it hashes the empty sequence and returns the
(truncated) digest of the empty input, which is not the empty string. -/
theorem empty_input_C3_counterexample :
    (Core.calculate_md5_single_async [] 32 false).1 =
      "d41d8cd98f00b204e9800998ecf8427e" ∧
    (Core.calculate_md5_single_async [] 32 false).1 ≠ "" := by
  exact ⟨by decide, by decide⟩

/-- C3, amended: on the empty byte sequence the streamed digest and the
parallel digest return the empty string, while the single-task digest
function returns the truncated digest of the empty input. -/
theorem empty_input_C3_amended :
    (∀ (self : Core.Md5Calculator) (md5_length : Nat),
      (Core.calculate_md5_async self [] md5_length).1 = "") ∧
    (∀ (self : Wasm.Md5Calculator) (md5_length : Nat),
      (Wasm.calculate_md5_async self [] md5_length).1 = "") ∧
    (∀ (md5_length : Nat) (enable_log : Bool),
      (Core.calculate_md5_single_async [] md5_length enable_log).1 =
        truncateHash md5_length (md5Hex [])) := by
  refine ⟨fun _ _ => rfl, fun _ _ => rfl, fun _ _ => rfl⟩

/-- C4, counterexample: the session table is a process-wide static, so a
session started through one engine instance is visible to — and can be
updated, finalized, and cancelled through — a distinct instance. -/
theorem session_scope_C4_counterexample :
    (Wasm.Md5Calculator.mk false ≠ Wasm.Md5Calculator.mk true) ∧
    (Wasm.update_incremental_md5 ⟨true⟩
      (Wasm.start_incremental_md5 ⟨false⟩ [] "s").1 "s" [0]).1 = true ∧
    (Wasm.finalize_incremental_md5 ⟨true⟩
      (Wasm.start_incremental_md5 ⟨false⟩ [] "s").1 "s" 32).1 ≠ "" ∧
    (Wasm.cancel_incremental_md5 ⟨true⟩
      (Wasm.start_incremental_md5 ⟨false⟩ [] "s").1 "s").1 = true := by
  exact ⟨by decide, by decide, by decide, by decide⟩

/-- C4, amended: the session table is shared process-wide: every session
operation depends only on the table and its arguments, never on which
engine instance performs it, and a session started through any instance is
updatable through any other. -/
theorem session_scope_C4_amended :
    ∀ (c1 c2 : Wasm.Md5Calculator) (g : Wasm.Registry) (id : String)
      (data : List Nat) (md5_length : Nat),
      (Wasm.update_incremental_md5 c2
        (Wasm.start_incremental_md5 c1 g id).1 id data).1 = true ∧
      (Wasm.start_incremental_md5 c1 g id).1 =
        (Wasm.start_incremental_md5 c2 g id).1 ∧
      (Wasm.update_incremental_md5 c1 g id data).1 =
        (Wasm.update_incremental_md5 c2 g id data).1 ∧
      (Wasm.update_incremental_md5 c1 g id data).2.1 =
        (Wasm.update_incremental_md5 c2 g id data).2.1 ∧
      (Wasm.finalize_incremental_md5 c1 g id md5_length).1 =
        (Wasm.finalize_incremental_md5 c2 g id md5_length).1 ∧
      (Wasm.finalize_incremental_md5 c1 g id md5_length).2.1 =
        (Wasm.finalize_incremental_md5 c2 g id md5_length).2.1 ∧
      (Wasm.cancel_incremental_md5 c1 g id).1 =
        (Wasm.cancel_incremental_md5 c2 g id).1 ∧
      (Wasm.cancel_incremental_md5 c1 g id).2.1 =
        (Wasm.cancel_incremental_md5 c2 g id).2.1 := by
  intro c1 c2 g id data md5_length
  cases h : Wasm.regGet g id <;>
    simp [Wasm.start_incremental_md5, Wasm.update_incremental_md5,
      Wasm.finalize_incremental_md5, Wasm.cancel_incremental_md5, h]

/-- C5: start, two updates and a finalize produce exactly the truncated
reference digest of the concatenation of the two update payloads — the
same string the single-task one-shot function returns on the
concatenation. -/
theorem session_algebra_C5 :
    ∀ (self : Wasm.Md5Calculator) (g : Wasm.Registry) (id : String)
      (x y : List Nat) (md5_length : Nat) (enable_log : Bool),
      (Wasm.finalize_incremental_md5 self
        (Wasm.update_incremental_md5 self
          (Wasm.update_incremental_md5 self
            (Wasm.start_incremental_md5 self g id).1 id x).2.1 id y).2.1
        id md5_length).1 =
        truncateHash md5_length (md5Hex (x ++ y)) ∧
      (Wasm.finalize_incremental_md5 self
        (Wasm.update_incremental_md5 self
          (Wasm.update_incremental_md5 self
            (Wasm.start_incremental_md5 self g id).1 id x).2.1 id y).2.1
        id md5_length).1 =
        (Core.calculate_md5_single_async (x ++ y) md5_length enable_log).1 := by
  intro self g id x y md5_length enable_log
  constructor
  · simp [Wasm.start_incremental_md5, Wasm.update_incremental_md5,
      Wasm.finalize_incremental_md5, md5Hex]
  · simp [Wasm.start_incremental_md5, Wasm.update_incremental_md5,
      Wasm.finalize_incremental_md5, Core.calculate_md5_single_async, md5Hex]

/-- C6: update, finalize and cancel on an id with no active session return
the not-found sentinels (false, empty string, false) and leave the table
unchanged; and finalize after a finalize or cancel of the same id always
returns the not-found result. -/
theorem unknown_session_C6 :
    ∀ (self : Wasm.Md5Calculator) (g : Wasm.Registry) (id : String)
      (data : List Nat) (m1 m2 : Nat),
      (Wasm.regGet g id = none →
        (Wasm.update_incremental_md5 self g id data).1 = false ∧
        (Wasm.update_incremental_md5 self g id data).2.1 = g ∧
        (Wasm.finalize_incremental_md5 self g id m1).1 = "" ∧
        (Wasm.finalize_incremental_md5 self g id m1).2.1 = g ∧
        (Wasm.cancel_incremental_md5 self g id).1 = false ∧
        (Wasm.cancel_incremental_md5 self g id).2.1 = g) ∧
      (Wasm.finalize_incremental_md5 self
        (Wasm.finalize_incremental_md5 self g id m1).2.1 id m2).1 = "" ∧
      (Wasm.finalize_incremental_md5 self
        (Wasm.cancel_incremental_md5 self g id).2.1 id m2).1 = "" := by
  intro self g id data m1 m2
  refine ⟨?_, ?_, ?_⟩
  · intro h
    refine ⟨?_, ?_, ?_, ?_, ?_, ?_⟩ <;>
      simp [Wasm.update_incremental_md5, Wasm.finalize_incremental_md5,
        Wasm.cancel_incremental_md5, h, Wasm.regRemove_of_regGet_none g id h]
  · cases h : Wasm.regGet g id <;>
      simp [Wasm.finalize_incremental_md5, h]
  · simp [Wasm.finalize_incremental_md5, Wasm.cancel_incremental_md5]

/-- Witness for C6 at a concrete input: the empty table has no session
`"s"`, and an update on it is refused with the table unchanged. -/
theorem unknown_session_C6_witness :
    Wasm.regGet [] "s" = none ∧
    (Wasm.update_incremental_md5 ⟨false⟩ [] "s" [0]).1 = false ∧
    (Wasm.update_incremental_md5 ⟨false⟩ [] "s" [0]).2.1 = [] :=
  ⟨by decide,
   ((unknown_session_C6 ⟨false⟩ [] "s" [0] 32 32).1 (by decide)).1,
   (((unknown_session_C6 ⟨false⟩ [] "s" [0] 32 32).1 (by decide)).2).1⟩

/-- C8: on a 32-character hex digest the formatter always returns exactly
the first `min n 32` characters — 16 and 32 included — so every choice of
`n` (0 and values beyond the hex length included) succeeds and never reads
past the digest. -/
theorem truncation_policy_C8 :
    ∀ (s : String) (n : Nat), s.length = 32 →
      truncateHash n s = strTake s (min n 32) ∧
      (truncateHash n s).length = min n 32 := by
  intro s n h
  have main : truncateHash n s = strTake s (min n 32) := by
    unfold truncateHash
    by_cases e16 : n = 16
    · subst e16
      norm_num
    · by_cases e32 : n = 32
      · subst e32
        rw [if_neg (by omega), if_pos rfl]
        have : strTake s (min 32 32) = strTake s 32 := by norm_num
        rw [this, strTake_of_length_le s 32 (by omega)]
      · rw [if_neg e16, if_neg e32, h]
  refine ⟨main, ?_⟩
  rw [main, length_strTake, h]
  omega

/-- Witness for C8 at a concrete input: an out-of-range `n = 100` returns
the whole 32-character string without error. -/
theorem truncation_policy_C8_witness :
    ("0123456789abcdef0123456789abcdef" : String).length = 32 ∧
    (truncateHash 100 "0123456789abcdef0123456789abcdef" =
      strTake "0123456789abcdef0123456789abcdef" (min 100 32) ∧
    (truncateHash 100 "0123456789abcdef0123456789abcdef").length =
      min 100 32) :=
  ⟨by decide,
   truncation_policy_C8 "0123456789abcdef0123456789abcdef" 100 (by decide)⟩

/-- C10: a one-shot digest call (streamed, parallel, or single-task)
leaves the whole program state unchanged: every session keeps its
accumulated state and both calculators keep their configuration. -/
theorem one_shot_frame_C10 :
    ∀ (w : World) (data : List Nat) (md5_length : Nat) (enable_log : Bool)
      (id : String),
      (runStreamed w data md5_length).2 = w ∧
      Wasm.regGet (runStreamed w data md5_length).2.registry id =
        Wasm.regGet w.registry id ∧
      (runStreamed w data md5_length).2.wasm_calc.enable_log =
        w.wasm_calc.enable_log ∧
      (runParallel w data md5_length).2 = w ∧
      Wasm.regGet (runParallel w data md5_length).2.registry id =
        Wasm.regGet w.registry id ∧
      (runParallel w data md5_length).2.core_calc.task_count =
        w.core_calc.task_count ∧
      (runParallel w data md5_length).2.core_calc.enable_log =
        w.core_calc.enable_log ∧
      (runSingle w data md5_length enable_log).2 = w ∧
      Wasm.regGet (runSingle w data md5_length enable_log).2.registry id =
        Wasm.regGet w.registry id := by
  intro w data md5_length enable_log id
  exact ⟨rfl, rfl, rfl, rfl, rfl, rfl, rfl, rfl, rfl⟩

/-- The parallel digest is the hash of the index-ordered concatenation of
the per-slice digests, formatted and truncated. -/
theorem parallel_digest_formula (self : Core.Md5Calculator) (data : List Nat)
    (md5_length : Nat) (h : data ≠ []) :
    (Core.calculate_md5_async self data md5_length).1 =
      truncateHash md5_length (md5Hex
        (((List.range (min self.task_count data.length)).map fun i =>
          md5 (Core.sliceOf data (min self.task_count data.length) i)).flatten)) := by
  have hlen : ¬ data.length = 0 := fun hl => h (List.length_eq_zero.mp hl)
  unfold Core.calculate_md5_async
  rw [if_neg hlen]
  simp only [foldl_append_eq_flatten, List.nil_append, md5Hex]

/-- With one task, the parallel digest is the hash of the digest of the
whole input. -/
theorem parallel_single_task_formula (self : Core.Md5Calculator)
    (data : List Nat) (md5_length : Nat) (h1 : self.task_count = 1)
    (h : data ≠ []) :
    (Core.calculate_md5_async self data md5_length).1 =
      truncateHash md5_length (md5Hex (md5 data)) := by
  rw [parallel_digest_formula self data md5_length h, h1]
  have hpos : 0 < data.length := List.length_pos.mpr h
  have hmin : min 1 data.length = 1 := by omega
  rw [hmin]
  have hslice : Core.sliceOf data 1 0 = data := by
    simp [Core.sliceOf, Core.sliceBounds, Nat.div_one, Nat.mod_one,
      List.drop_zero, List.take_length]
  have hr : List.range 1 = [0] := rfl
  simp [hr, hslice]

/-- C1: the parallel digest equals the hash of the concatenation, in slice
index order, of the per-slice digests; with a single task it equals the
hash of the digest of the whole input, which at input `"abc"` differs from
the plain digest of the input. -/
theorem parallel_composition_C1 :
    (∀ (self : Core.Md5Calculator) (data : List Nat) (md5_length : Nat),
      data ≠ [] →
      (Core.calculate_md5_async self data md5_length).1 =
        truncateHash md5_length (md5Hex
          (((List.range (min self.task_count data.length)).map fun i =>
            md5 (Core.sliceOf data (min self.task_count data.length) i)).flatten))) ∧
    (∀ (self : Core.Md5Calculator) (data : List Nat) (md5_length : Nat),
      self.task_count = 1 → data ≠ [] →
      (Core.calculate_md5_async self data md5_length).1 =
        truncateHash md5_length (md5Hex (md5 data))) ∧
    ((Core.calculate_md5_async (Core.Md5Calculator.new 1)
        [0x61, 0x62, 0x63] 32).1 ≠ md5Hex [0x61, 0x62, 0x63]) :=
  ⟨parallel_digest_formula, parallel_single_task_formula, by decide⟩

/-- Witness for C1 at a concrete input: the two-task parallel digest of
`"abc"` is the truncated hash of the two concatenated slice digests. -/
theorem parallel_composition_C1_witness :
    ([0x61, 0x62, 0x63] ≠ ([] : List Nat)) ∧
    (Core.calculate_md5_async ⟨2, false⟩ [0x61, 0x62, 0x63] 32).1 =
      truncateHash 32 (md5Hex
        (((List.range (min 2 3)).map fun i =>
          md5 (Core.sliceOf [0x61, 0x62, 0x63] (min 2 3) i)).flatten)) :=
  ⟨by decide,
   parallel_composition_C1.1 ⟨2, false⟩ [0x61, 0x62, 0x63] 32 (by decide)⟩

/-- Normal form of the slice bounds. -/
theorem sliceBounds_def (N a i : Nat) :
    Core.sliceBounds N a i =
      (i * (N / a),
       if i = a - 1 then i * (N / a) + N / a + N % a
       else i * (N / a) + N / a) := rfl

/-- The planned length of slice `i`: the base size, plus the remainder for
the last slice. -/
theorem sliceLen_eq (N a i : Nat) :
    (Core.sliceBounds N a i).2 - (Core.sliceBounds N a i).1 =
      N / a + if i = a - 1 then N % a else 0 := by
  simp only [sliceBounds_def]
  by_cases hi : i = a - 1
  · rw [if_pos hi, if_pos hi, Nat.add_assoc, Nat.add_sub_cancel_left]
  · rw [if_neg hi, if_neg hi, Nat.add_sub_cancel_left, Nat.add_zero]

/-- C7: after clamping the task count to `min k N`, the planned slices
start at offset 0, are contiguous and pairwise disjoint, their lengths sum
to `N`, every slice but the last has length `N / k`, and the last absorbs
the remainder. -/
theorem slice_partition_C7 :
    ∀ (N k : Nat), 0 < N → 0 < k →
      ((Core.sliceBounds N (min k N) 0).1 = 0) ∧
      (∀ i, i + 1 < min k N →
        (Core.sliceBounds N (min k N) (i + 1)).1 =
          (Core.sliceBounds N (min k N) i).2) ∧
      (∀ i j, i < j → j < min k N →
        (Core.sliceBounds N (min k N) i).2 ≤
          (Core.sliceBounds N (min k N) j).1) ∧
      ((Finset.range (min k N)).sum (fun i =>
        (Core.sliceBounds N (min k N) i).2 -
          (Core.sliceBounds N (min k N) i).1) = N) ∧
      (∀ i, i < min k N - 1 →
        (Core.sliceBounds N (min k N) i).2 -
          (Core.sliceBounds N (min k N) i).1 = N / min k N) ∧
      ((Core.sliceBounds N (min k N) (min k N - 1)).2 -
        (Core.sliceBounds N (min k N) (min k N - 1)).1 =
          N / min k N + N % min k N) := by
  intro N k hN hk
  have hk' : 0 < min k N := by omega
  refine ⟨?_, ?_, ?_, ?_, ?_, ?_⟩
  · simp [Core.sliceBounds]
  · intro i hi
    have hne : ¬ i = min k N - 1 := by omega
    simp only [Core.sliceBounds, if_neg hne]
    ring
  · intro i j hij hj
    have hne : ¬ i = min k N - 1 := by omega
    simp only [Core.sliceBounds, if_neg hne]
    have h2 : (i + 1) * (N / min k N) ≤ j * (N / min k N) :=
      Nat.mul_le_mul_right _ (by omega)
    calc i * (N / min k N) + N / min k N
        = (i + 1) * (N / min k N) := by ring
      _ ≤ j * (N / min k N) := h2
  · rw [Finset.sum_congr rfl (fun i _ => sliceLen_eq N (min k N) i),
      Finset.sum_add_distrib, Finset.sum_const, Finset.card_range,
      smul_eq_mul,
      Finset.sum_ite_eq' (Finset.range (min k N)) (min k N - 1)
        (fun _ => N % min k N),
      if_pos (Finset.mem_range.mpr (by omega))]
    exact Nat.div_add_mod N (min k N)
  · intro i hi
    rw [sliceLen_eq, if_neg (by omega), Nat.add_zero]
  · rw [sliceLen_eq, if_pos rfl]

/-- Witness for C7 at `N = 10`, `k = 3`: three slices `[0,3)`, `[3,6)`,
`[6,10)` — contiguous, disjoint, summing to 10, the last absorbing the
remainder 1. -/
theorem slice_partition_C7_witness :
    (0 < 10) ∧ (0 < 3) ∧
    (((Core.sliceBounds 10 (min 3 10) 0).1 = 0) ∧
      (∀ i, i + 1 < min 3 10 →
        (Core.sliceBounds 10 (min 3 10) (i + 1)).1 =
          (Core.sliceBounds 10 (min 3 10) i).2) ∧
      (∀ i j, i < j → j < min 3 10 →
        (Core.sliceBounds 10 (min 3 10) i).2 ≤
          (Core.sliceBounds 10 (min 3 10) j).1) ∧
      ((Finset.range (min 3 10)).sum (fun i =>
        (Core.sliceBounds 10 (min 3 10) i).2 -
          (Core.sliceBounds 10 (min 3 10) i).1) = 10) ∧
      (∀ i, i < min 3 10 - 1 →
        (Core.sliceBounds 10 (min 3 10) i).2 -
          (Core.sliceBounds 10 (min 3 10) i).1 = 10 / min 3 10) ∧
      ((Core.sliceBounds 10 (min 3 10) (min 3 10 - 1)).2 -
        (Core.sliceBounds 10 (min 3 10) (min 3 10 - 1)).1 =
          10 / min 3 10 + 10 % min 3 10)) :=
  ⟨by decide, by decide, slice_partition_C7 10 3 (by decide) (by decide)⟩

/-- C9, counterexample: the logging getter is itself a public operation,
and its returned boolean changes when the logging flag flips, so the claim
as stated fails at that operation. -/
theorem logging_flag_C9_counterexample :
    (Wasm.Md5Calculator.mk true).is_log_enabled = true ∧
    (Wasm.Md5Calculator.mk false).is_log_enabled = false ∧
    (Wasm.Md5Calculator.mk true).is_log_enabled ≠
      (Wasm.Md5Calculator.mk false).is_log_enabled := by
  exact ⟨rfl, rfl, by decide⟩

/-- C9, amended: for every public operation other than the logging getter
itself, the returned digests, booleans, strings and session-table updates
are identical with logging enabled and disabled; only the emitted console
text changes.  The constructors default the flag to off. -/
theorem logging_flag_independence_C9 :
    ∀ (task_count : Nat) (data : List Nat) (md5_length : Nat)
      (g : Wasm.Registry) (id : String),
      ((Core.calculate_md5_async ⟨task_count, true⟩ data md5_length).1 =
        (Core.calculate_md5_async ⟨task_count, false⟩ data md5_length).1) ∧
      ((Core.calculate_md5_single_async data md5_length true).1 =
        (Core.calculate_md5_single_async data md5_length false).1) ∧
      ((Wasm.calculate_md5_async ⟨true⟩ data md5_length).1 =
        (Wasm.calculate_md5_async ⟨false⟩ data md5_length).1) ∧
      ((Wasm.start_incremental_md5 ⟨true⟩ g id).1 =
        (Wasm.start_incremental_md5 ⟨false⟩ g id).1) ∧
      ((Wasm.update_incremental_md5 ⟨true⟩ g id data).1 =
        (Wasm.update_incremental_md5 ⟨false⟩ g id data).1) ∧
      ((Wasm.update_incremental_md5 ⟨true⟩ g id data).2.1 =
        (Wasm.update_incremental_md5 ⟨false⟩ g id data).2.1) ∧
      ((Wasm.finalize_incremental_md5 ⟨true⟩ g id md5_length).1 =
        (Wasm.finalize_incremental_md5 ⟨false⟩ g id md5_length).1) ∧
      ((Wasm.finalize_incremental_md5 ⟨true⟩ g id md5_length).2.1 =
        (Wasm.finalize_incremental_md5 ⟨false⟩ g id md5_length).2.1) ∧
      ((Wasm.cancel_incremental_md5 ⟨true⟩ g id).1 =
        (Wasm.cancel_incremental_md5 ⟨false⟩ g id).1) ∧
      ((Wasm.cancel_incremental_md5 ⟨true⟩ g id).2.1 =
        (Wasm.cancel_incremental_md5 ⟨false⟩ g id).2.1) ∧
      ((Core.Md5Calculator.new task_count).enable_log = false) ∧
      (Wasm.Md5Calculator.new.enable_log = false) ∧
      ((Core.Md5Calculator.mk task_count true).get_task_count =
        (Core.Md5Calculator.mk task_count false).get_task_count) := by
  intro task_count data md5_length g id
  refine ⟨?_, rfl, ?_, rfl, ?_, ?_, ?_, ?_, rfl, rfl, rfl, rfl, rfl⟩
  · by_cases hd : data.length = 0 <;> simp [Core.calculate_md5_async, hd]
  · by_cases hd : data.length = 0 <;> simp [Wasm.calculate_md5_async, hd]
  · cases h : Wasm.regGet g id <;> simp [Wasm.update_incremental_md5, h]
  · cases h : Wasm.regGet g id <;> simp [Wasm.update_incremental_md5, h]
  · cases h : Wasm.regGet g id <;> simp [Wasm.finalize_incremental_md5, h]
  · cases h : Wasm.regGet g id <;> simp [Wasm.finalize_incremental_md5, h]
